import Mathlib

/-!
# StillOpen — verification of the specification against the source

This development shallowly embeds the StillOpen repository (a Next.js
frontend over a prediction backend) and settles the frozen claims about it.

JavaScript strings are modelled as `List Char`; numbers that matter only as
code points or HTTP status codes are `Nat`; probabilities are `ℚ`.

Frontend definitions are translated from the TypeScript sources under
`stillopen/frontend/src`.  The Python backend (feature pipeline, classifier
adapter, explanation generator, query resolver, prediction service) is not
part of the provided sources; where a claim depends on it, the corresponding
definition is modelled from the specification and says so in its doc string.
-/

/-- Convert a Lean string literal to the `List Char` model of a JS string. -/
def str (s : String) : List Char := s.data

/-- Model of JS `String.prototype.toLowerCase` restricted to ASCII case
mapping, which is the range exercised by the status strings. -/
def jsToLower (s : List Char) : List Char := s.map Char.toLower

/-- White-space test used by JS `String.prototype.trim`: tab, LF, VT, FF,
CR, space, NBSP and the BOM/zero-width no-break space. -/
def jsWhitespace (c : Char) : Bool :=
  decide (c.toNat = 9 ∨ c.toNat = 10 ∨ c.toNat = 11 ∨ c.toNat = 12 ∨
    c.toNat = 13 ∨ c.toNat = 32 ∨ c.toNat = 160 ∨ c.toNat = 65279)

/-- Model of JS `String.prototype.trim`: drop white-space from both ends. -/
def jsTrim (s : List Char) : List Char :=
  ((s.dropWhile jsWhitespace).reverse.dropWhile jsWhitespace).reverse

/-- The `PlaceDetail` shape consumed by `ResultCard`
(`components/ResultCard.tsx` lines 5–12).  The TypeScript interface types
`explanation` as `string[]`, but the component guards against it being
absent at runtime (`data.explanation && …`), so it is modelled as optional. -/
structure PlaceDetail where
  id : List Char
  name : List Char
  address : List Char
  status : List Char
  confidence : ℚ
  explanation : Option (List (List Char))
deriving DecidableEq

/-- The `SearchResultType` shape used by `SearchBar` and `SearchResults`. -/
structure SearchResultT where
  id : List Char
  name : List Char
  address : List Char
  status : List Char
  confidence : ℚ
deriving DecidableEq

/-- An HTTP response as observed by the fetch calls in `lib/api.ts`:
the `ok` flag, the numeric status code, and the parsed JSON body. -/
structure HttpResponse where
  ok : Bool
  status : Nat
  body : PlaceDetail

/-- `getPlaceDetails` from `lib/api.ts` lines 9–16: a non-ok response with
status 404 yields `null` (modelled `Option.none`); any other non-ok response
throws `Error("Failed to get place details")`; an ok response yields the
parsed body. -/
def getPlaceDetails (r : HttpResponse) : Except (List Char) (Option PlaceDetail) :=
  if r.ok = false then
    if r.status = 404 then Except.ok none
    else Except.error (str "Failed to get place details")
  else Except.ok (some r.body)

/-- The three mutually exclusive renderings of the place page
(`app/place/[id]/page.tsx`): the error card, the dedicated
"Place not found" view, and the `ResultCard` with the fetched detail. -/
inductive PlaceView where
  | errorCard
  | notFoundView
  | resultView (d : PlaceDetail)
deriving DecidableEq

/-- `PlacePage` from `app/place/[id]/page.tsx` lines 6–39: the
`try`/`catch` around `getPlaceDetails` sets `fetchError` on a throw and
renders the error card; a `null` place renders the "Place not found" view;
otherwise the `ResultCard` is rendered with the place. -/
def PlacePage (fetched : Except (List Char) (Option PlaceDetail)) : PlaceView :=
  match fetched with
  | Except.error _ => PlaceView.errorCard
  | Except.ok none => PlaceView.notFoundView
  | Except.ok (some p) => PlaceView.resultView p

/-- The three badges `StatusBadge` can render. -/
inductive Badge where
  | openBadge
  | closedBadge
  | unknownBadge
deriving DecidableEq

/-- `StatusBadge` from `components/StatusBadge.tsx` (lines 169–178 of the
concatenated `SearchBar.tsx` source): lowercase the status, render the Open
badge on "open", the Closed badge on "closed", the Unknown badge otherwise. -/
def StatusBadge (status : List Char) : Badge :=
  if jsToLower status = str "open" then Badge.openBadge
  else if jsToLower status = str "closed" then Badge.closedBadge
  else Badge.unknownBadge

/-- Outcome of the debounced query effect in `SearchBar`
(`components/SearchBar.tsx` lines 35–54): the resulting dropdown result
list and the query of the HTTP request issued, if any. -/
structure SearchBarEffectResult where
  results : List SearchResultT
  request : Option (List Char)
deriving DecidableEq

/-- The `SearchBar` query effect (`components/SearchBar.tsx` lines 35–54):
when the trimmed query is shorter than 2 characters the result list is
cleared and no call to `searchPlaces` is scheduled; otherwise a request for
the query is issued (results change only once the response arrives). -/
def searchBarQueryEffect (query : List Char) (prev : List SearchResultT) :
    SearchBarEffectResult :=
  if (jsTrim query).length < 2 then ⟨[], none⟩
  else ⟨prev, some query⟩

/-- Outcome of a remote fetch as seen by the client components: either the
parsed data or a thrown error message. -/
inductive FetchOutcome (α : Type) where
  | success (data : α)
  | failure (msg : List Char)

/-- State update applied by `SearchBar` when a scheduled `searchPlaces`
call settles (`components/SearchBar.tsx` lines 41–52): on success the
results are replaced and the dropdown shown; on failure the error is only
logged, so results and dropdown state are kept. -/
def searchBarAfterFetch (prev : List SearchResultT × Bool)
    (o : FetchOutcome (List SearchResultT)) : List SearchResultT × Bool :=
  match o with
  | FetchOutcome.success data => (data, true)
  | FetchOutcome.failure _ => prev

/-- Confidence visibility in the `SearchBar` dropdown
(`components/SearchBar.tsx` line 118): shown exactly when the status string
is the literal "open" or "closed". -/
def searchBarShowsConfidence (status : List Char) : Bool :=
  status == str "open" || status == str "closed"

/-- Confidence visibility in `SearchResults`
(`components/SearchResults.tsx` line 152): same literal comparison. -/
def searchResultsShowsConfidence (status : List Char) : Bool :=
  status == str "open" || status == str "closed"

/-- Confidence visibility in `ResultCard` (`components/ResultCard.tsx`
lines 19–21 and 60): shown exactly when the lowercased status is "open" or
"closed". -/
def resultCardShowsConfidence (status : List Char) : Bool :=
  jsToLower status == str "open" || jsToLower status == str "closed"

/-- State update applied by `SearchResults` when `searchPlaces` settles
(`components/SearchResults.tsx` lines 117–124): success replaces the
results; failure only logs, keeping the previous results. -/
def searchResultsAfterFetch (prev : List SearchResultT)
    (o : FetchOutcome (List SearchResultT)) : List SearchResultT :=
  match o with
  | FetchOutcome.success data => data
  | FetchOutcome.failure _ => prev

/-- The four renderings of `SearchResults`. -/
inductive SearchResultsView where
  | spinner
  | noResultsMessage
  | emptyView
  | resultsList (rs : List SearchResultT)
deriving DecidableEq

/-- Render logic of `SearchResults` (`components/SearchResults.tsx` lines
129–162): spinner while loading, a "No results found" message for an empty
list with a truthy (non-empty) query, nothing for an empty list with an
empty query, else the result list. -/
def searchResultsRender (loading : Bool) (query : List Char)
    (results : List SearchResultT) : SearchResultsView :=
  if loading then SearchResultsView.spinner
  else if results.length = 0 ∧ query ≠ [] then SearchResultsView.noResultsMessage
  else if results.length = 0 ∧ query = [] then SearchResultsView.emptyView
  else SearchResultsView.resultsList results

/-- The generic fallback text of the signal section in `ResultCard`
(`components/ResultCard.tsx` line 82). -/
def noExplanationMessage : List Char :=
  str "No detailed explanation available for this prediction."

/-- The two renderings of the signal-analysis section of `ResultCard`. -/
inductive SignalSection where
  | signalList (items : List (List Char))
  | genericNote (msg : List Char)
deriving DecidableEq

/-- Signal section of `ResultCard` (`components/ResultCard.tsx` lines
72–83): `data.explanation && data.explanation.length > 0` selects the
itemised list, anything else the generic note. -/
def resultCardSignals (explanation : Option (List (List Char))) : SignalSection :=
  match explanation with
  | some l =>
    if 0 < l.length then SignalSection.signalList l
    else SignalSection.genericNote noExplanationMessage
  | none => SignalSection.genericNote noExplanationMessage

/-- Code points left unescaped by JS `encodeURIComponent` (ECMA-262
`uriUnescaped`): ASCII alphanumerics and `- . _ ~ ! * ( )` and the
apostrophe, code point 39. -/
def isUnreservedCp (n : Nat) : Bool :=
  decide ((48 ≤ n ∧ n ≤ 57) ∨ (65 ≤ n ∧ n ≤ 90) ∨ (97 ≤ n ∧ n ≤ 122) ∨
    n = 45 ∨ n = 46 ∨ n = 95 ∨ n = 126 ∨ n = 33 ∨ n = 42 ∨ n = 39 ∨
    n = 40 ∨ n = 41)

/-- UTF-8 encoding of one code point, as a list of byte values. -/
def utf8Bytes (n : Nat) : List Nat :=
  if n < 128 then [n]
  else if n < 2048 then [192 + n / 64, 128 + n % 64]
  else if n < 65536 then [224 + n / 4096, 128 + n / 64 % 64, 128 + n % 64]
  else [240 + n / 262144, 128 + n / 4096 % 64, 128 + n / 64 % 64, 128 + n % 64]

/-- Uppercase hexadecimal digit character for a value below 16. -/
def hexDigitChar (d : Nat) : Nat := if d < 10 then 48 + d else 55 + d

/-- Percent-escape of one byte: `%` followed by two uppercase hex digits. -/
def percentEncodeByte (b : Nat) : List Nat :=
  [37, hexDigitChar (b / 16), hexDigitChar (b % 16)]

/-- `encodeURIComponent` on a single code point: unreserved code points
stand for themselves, everything else is the percent-escape of each byte of
its UTF-8 encoding. -/
def encodeCp (n : Nat) : List Nat :=
  if isUnreservedCp n then [n] else (utf8Bytes n).flatMap percentEncodeByte

/-- Model of the JS builtin `encodeURIComponent` (ECMA-262), applied by
`searchPlaces` in `lib/api.ts` line 4 to the query before splicing it into
the request URL.  Operates on the code points of the query string. -/
def encodeURIComponent (q : List Nat) : List Nat := q.flatMap encodeCp

/-- Value of one hexadecimal digit character, accepting both cases. -/
def hexVal (c : Nat) : Option Nat :=
  if 48 ≤ c ∧ c ≤ 57 then some (c - 48)
  else if 65 ≤ c ∧ c ≤ 70 then some (c - 55)
  else if 97 ≤ c ∧ c ≤ 102 then some (c - 87)
  else none

/-- Percent-decoding pass of URI-component decoding: each `%XY` triple
becomes the byte `XY`; any other character contributes the bytes of its
UTF-8 encoding.  Fails on a malformed escape. -/
def percentDecode : List Nat → Option (List Nat)
  | [] => some []
  | c :: rest =>
    if c = 37 then
      match rest with
      | h :: l :: rest2 =>
        match hexVal h, hexVal l with
        | some hv, some lv =>
          Option.map (fun bs => (16 * hv + lv) :: bs) (percentDecode rest2)
        | _, _ => none
      | _ => none
    else Option.map (fun bs => utf8Bytes c ++ bs) (percentDecode rest)

/-- Streaming UTF-8 decoder: the state is `none` between characters, or
`some (v, k)` inside a multi-byte character with accumulated value `v` and
`k` continuation bytes still expected.  It fails on a truncated sequence, a
stray or missing continuation byte, or an invalid leading byte. -/
def utf8DecodeSt : Option (Nat × Nat) → List Nat → Option (List Nat)
  | none, [] => some []
  | some _, [] => none
  | none, b :: rest =>
    if b < 128 then Option.map (fun l => b :: l) (utf8DecodeSt none rest)
    else if b < 192 then none
    else if b < 224 then utf8DecodeSt (some (b - 192, 1)) rest
    else if b < 240 then utf8DecodeSt (some (b - 224, 2)) rest
    else if b < 248 then utf8DecodeSt (some (b - 240, 3)) rest
    else none
  | some (v, k), c :: rest =>
    if 128 ≤ c ∧ c < 192 then
      if k = 1 then
        Option.map (fun l => (v * 64 + (c - 128)) :: l) (utf8DecodeSt none rest)
      else utf8DecodeSt (some (v * 64 + (c - 128), k - 1)) rest
    else none

/-- UTF-8 decoding of a byte sequence into code points. -/
def utf8Decode (bs : List Nat) : Option (List Nat) := utf8DecodeSt none bs

/-- Standard URI-component decoding: percent-decode to bytes, then decode
the bytes as UTF-8.  This is what a receiver applies to the `q` parameter. -/
def decodeURIComponent (s : List Nat) : Option (List Nat) :=
  (percentDecode s).bind utf8Decode

/-- The value of the `q` parameter of the request issued by `searchPlaces`
(`lib/api.ts` lines 3–7): the URL is `API_BASE` + "/search?q=" + the
encoded query, so the parameter value is exactly `encodeURIComponent`
applied to the code points of the query. -/
def searchPlacesQueryParam (q : List Char) : List Nat :=
  encodeURIComponent (q.map Char.toNat)

/-- The full request URL built by `searchPlaces` in `lib/api.ts` line 4,
given the code points of `API_BASE`. -/
def searchPlacesUrl (base : List Nat) (q : List Char) : List Nat :=
  base ++ (str "/search?q=").map Char.toNat ++ searchPlacesQueryParam q

/-- Modelled from the spec: the prediction status of §3, one of `OPEN`,
`CLOSED`, `UNKNOWN` (the backend sources carrying it are not provided). -/
inductive Status where
  | OPEN
  | CLOSED
  | UNKNOWN
deriving DecidableEq

/-- Modelled from the spec: the Place record of §3 — stable `place_id`,
`name`, `category`, an optional coordinate, the recognised optional
metadata keys (`has_website`, `opening_hours_text`, `source`) and an
optional `last_updated` timestamp (seconds, say).  The backend catalog
model (`models.py`/`database.py`) is not among the provided sources. -/
structure Place where
  place_id : List Char
  name : List Char
  category : List Char
  location : Option (Int × Int)
  has_website : Option Bool
  opening_hours_text : Option (List Char)
  source : Option (List Char)
  last_updated : Option Nat
deriving DecidableEq

/-- Modelled from the spec: the fixed category vocabulary of §4.1; unseen
categories map to the "other" bucket, index 0. -/
def categoryVocab : List (List Char) :=
  [str "restaurant", str "cafe", str "bar", str "shop"]

/-- Modelled from the spec: index of a category in the fixed vocabulary,
shifted by one so that 0 is the explicit "other" bucket. -/
def categoryIndex (c : List Char) : Nat :=
  ((categoryVocab.indexOf? c).map (fun i => i + 1)).getD 0

/-- Modelled from the spec: the clipping horizon (days) for the recency
feature of §4.1, also the sentinel when `last_updated` is absent. -/
def recencyHorizon : Nat := 365

/-- Modelled from the spec: `extract` of §4.1 (`features.py` is not among
the provided sources) — a total function from a Place and an explicitly
passed "now" to a fixed-order numeric feature vector, substituting the
documented sentinel 0 (plus a presence-flag feature) for each absent
metadata field, and the clipped horizon for an absent `last_updated`.
Feature order: location flag, latitude, longitude, category index, website
presence flag, website value, opening-hours presence flag, source presence
flag, recency days. -/
def extract (now : Nat) (p : Place) : List Int :=
  [ if p.location.isSome then 1 else 0,
    (p.location.map Prod.fst).getD 0,
    (p.location.map Prod.snd).getD 0,
    Int.ofNat (categoryIndex p.category),
    if p.has_website.isSome then 1 else 0,
    if p.has_website.getD false then 1 else 0,
    if p.opening_hours_text.isSome then 1 else 0,
    if p.source.isSome then 1 else 0,
    Int.ofNat (match p.last_updated with
      | some t => min (now - t) recencyHorizon
      | none => recencyHorizon) ]

/-- Modelled from the spec: the Classifier Adapter boundary of §4.2
(`predict.py` and the artifact are not among the provided sources).  The
artifact is opaque, so it is modelled by its contract: a probability
function and a per-feature contribution function over feature vectors. -/
structure Model where
  probFn : List Int → ℚ
  contribFn : List Int → List (List Char × ℚ)

/-- Modelled from the spec: `predict` of §4.2 — the probability threshold
0.5 selects the label, the raw probability is surfaced as confidence, and
the contributions are captured for explanation use. -/
def predictWithModel (m : Model) (v : List Int) :
    Status × ℚ × List (List Char × ℚ) :=
  let p := m.probFn v
  (if 1 / 2 ≤ p then Status.OPEN else Status.CLOSED, p, m.contribFn v)

/-- Modelled from the spec: the explanation cap of §4.3 (top 3–5; 5 here). -/
def explanationCap : Nat := 5

/-- Modelled from the spec: the single generic string returned by the
Explanation Generator when contributions are empty or negligible. -/
def genericExplanation : List Char :=
  str "Prediction based on overall metadata profile."

/-- Modelled from the spec: ranking of contributions by absolute magnitude,
descending, used by the Explanation Generator of §4.3. -/
def contribGE (a b : List Char × ℚ) : Prop := |b.2| ≤ |a.2|

instance : DecidableRel contribGE := fun a b => by
  unfold contribGE
  infer_instance

/-- Modelled from the spec: the natural-language template of §4.3 mapping a
ranked contribution to a sentence about the underlying signal. -/
def renderSignal (c : List Char × ℚ) : List Char :=
  if 0 < c.2 then c.1 ++ str " raises the OPEN probability"
  else c.1 ++ str " lowers the OPEN probability"

/-- Modelled from the spec: `explain` of §4.3 (the backend generator is not
among the provided sources) — drop negligible contributions, and if none
remain return the single generic string; otherwise rank by absolute
magnitude descending (stable sort, so equal magnitudes keep declaration
order) and render the top `explanationCap` as sentences. -/
def explain (contribs : List (List Char × ℚ)) : List (List Char) :=
  let usable := contribs.filter (fun c => decide (c.2 ≠ 0))
  if usable.length = 0 then [genericExplanation]
  else ((usable.insertionSort contribGE).take explanationCap).map renderSignal

/-- Modelled from the spec: the Catalog Store point lookup `getById` of §6,
a point lookup by the unique `place_id`. -/
def getById (catalog : List Place) (id : List Char) : Option Place :=
  catalog.find? (fun p => p.place_id == id)

/-- Modelled from the spec: the distinct, user-visible error of §4.5 — the
only per-request condition surfaced as a failure rather than absorbed into
an `UNKNOWN` result. -/
inductive PredictionError where
  | notFound
deriving DecidableEq

/-- Modelled from the spec: the PredictionResult record of §3. -/
structure PredictionResult where
  place_id : List Char
  status : Status
  confidence : ℚ
  explanation : List (List Char)
deriving DecidableEq

/-- Modelled from the spec: the explanatory string accompanying the
degraded `UNKNOWN` outcome when the classifier is unavailable (§4.5). -/
def modelUnavailableMessage : List Char :=
  str "Prediction model unavailable; status unknown."

/-- Modelled from the spec: `predictById` of §4.5 (the backend service is
not among the provided sources) — fetch by id, failing with `NotFound` if
the Place does not exist; with no loaded model return `UNKNOWN` with an
explanatory string; otherwise extract features, classify and explain, in
that order. -/
def predictById (model : Option Model) (catalog : List Place) (now : Nat)
    (id : List Char) : Except PredictionError PredictionResult :=
  match getById catalog id with
  | none => Except.error PredictionError.notFound
  | some p =>
    match model with
    | none =>
      Except.ok ⟨id, Status.UNKNOWN, 0, [modelUnavailableMessage]⟩
    | some m =>
      let r := predictWithModel m (extract now p)
      Except.ok ⟨id, r.1, r.2.1, explain r.2.2⟩

/-- Modelled from the spec: the SearchCandidate record of §3, carrying the
internal `relevance_score` ranking key and the fields the tie-breaks read. -/
structure SearchCandidate where
  place_id : List Char
  name : List Char
  status : Status
  confidence : ℚ
  relevance_score : Int
  last_updated : Nat
deriving DecidableEq

/-- Modelled from the spec: the ranking order of §4.4 step 3 — descending
by relevance score, ties broken by `last_updated` descending, then by
`place_id` ascending. -/
def rankLE (a b : SearchCandidate) : Prop :=
  b.relevance_score < a.relevance_score ∨
    (a.relevance_score = b.relevance_score ∧
      (b.last_updated < a.last_updated ∨
        (a.last_updated = b.last_updated ∧ a.place_id ≤ b.place_id)))

instance : DecidableRel rankLE := fun a b => by
  unfold rankLE
  infer_instance

/-- Modelled from the spec: assembly of one SearchCandidate (§4.4 steps
3–5) — the status is resolved through the Prediction Service path; a
missing model degrades to `UNKNOWN` rather than dropping the candidate. -/
def candidateOf (model : Option Model) (now : Nat) (score : Int) (p : Place) :
    SearchCandidate :=
  match model with
  | none => ⟨p.place_id, p.name, Status.UNKNOWN, 0, score, p.last_updated.getD 0⟩
  | some m =>
    let r := predictWithModel m (extract now p)
    ⟨p.place_id, p.name, r.1, r.2.1, score, p.last_updated.getD 0⟩

/-- Modelled from the spec: the Query Resolver `search` of §4.4 (the
backend `search.py` is not among the provided sources).  The store's
name-similarity scoring is an external capability (§6, §9), so it is a
parameter `sim`; queries whose trimmed text is shorter than 2 characters
yield the empty sequence; retrieved candidates (positive similarity) are
scored, sorted by the ranking order and capped at `limit`. -/
def search (model : Option Model) (now : Nat) (sim : List Char → Place → Int)
    (limit : Nat) (catalog : List Place) (q : List Char) : List SearchCandidate :=
  if (jsTrim q).length < 2 then []
  else
    ((((catalog.filter (fun p => decide (0 < sim q p))).map
      (fun p => candidateOf model now (sim q p) p)).insertionSort rankLE).take limit)

/-- Helper: the Explanation Generator always produces between 1 and
`explanationCap` strings. -/
theorem explain_length_bounds (cs : List (List Char × ℚ)) :
    1 ≤ (explain cs).length ∧ (explain cs).length ≤ explanationCap := by
  unfold explain
  dsimp only
  split_ifs with h
  · exact ⟨by decide, by decide⟩
  · constructor
    · rw [List.length_map, List.length_take, List.length_insertionSort]
      exact le_inf_iff.mpr ⟨by decide, Nat.one_le_iff_ne_zero.mpr h⟩
    · rw [List.length_map]
      exact List.length_take_le _ _

/-- C2: for every query whose trimmed text is shorter than 2 characters the
`SearchBar` effect clears the result list and issues no request to the
search endpoint. -/
theorem searchBar_shortQuery_clears (q : List Char) (prev : List SearchResultT)
    (h : (jsTrim q).length < 2) :
    (searchBarQueryEffect q prev).results = [] ∧
      (searchBarQueryEffect q prev).request = none := by
  simp [searchBarQueryEffect, h]

/-- Witness for C2 at the empty query and the one-space query. -/
theorem searchBar_shortQuery_clears_witness :
    ((searchBarQueryEffect (str "") []).results = [] ∧
      (searchBarQueryEffect (str "") []).request = none) ∧
    ((searchBarQueryEffect (str " ") []).results = [] ∧
      (searchBarQueryEffect (str " ") []).request = none) :=
  ⟨searchBar_shortQuery_clears (str "") [] (by decide),
   searchBar_shortQuery_clears (str " ") [] (by decide)⟩

/-- C3: for each of the three wire status strings, each of the three
displaying components renders the confidence exactly when the status is
"open" or "closed"; for "unknown" no confidence percentage is shown. -/
theorem confidence_shown_iff_open_or_closed (s : List Char)
    (h : s = str "open" ∨ s = str "closed" ∨ s = str "unknown") :
    (searchBarShowsConfidence s = true ↔ (s = str "open" ∨ s = str "closed")) ∧
    (searchResultsShowsConfidence s = true ↔ (s = str "open" ∨ s = str "closed")) ∧
    (resultCardShowsConfidence s = true ↔ (s = str "open" ∨ s = str "closed")) := by
  rcases h with h | h | h <;> subst h <;> exact ⟨by decide, by decide, by decide⟩

/-- Witness for C3 at the status "unknown". -/
theorem confidence_shown_iff_open_or_closed_witness :
    (searchBarShowsConfidence (str "unknown") = true ↔
      (str "unknown" = str "open" ∨ str "unknown" = str "closed")) ∧
    (searchResultsShowsConfidence (str "unknown") = true ↔
      (str "unknown" = str "open" ∨ str "unknown" = str "closed")) ∧
    (resultCardShowsConfidence (str "unknown") = true ↔
      (str "unknown" = str "open" ∨ str "unknown" = str "closed")) :=
  confidence_shown_iff_open_or_closed (str "unknown") (Or.inr (Or.inr rfl))

/-- C5: every fetch outcome of the two remote operations leaves the client
components in one of their enumerated rendered states — `PlacePage` maps
every response to the error card, the not-found view or a result view, and
renders the error card on every non-404 failure; `SearchResults` and
`SearchBar` absorb `searchPlaces` failures into their previous state, and
`SearchResults` renders one of its four views in every state. -/
theorem client_fetch_outcomes_total :
    (∀ r : HttpResponse,
        PlacePage (getPlaceDetails r) = PlaceView.errorCard ∨
        PlacePage (getPlaceDetails r) = PlaceView.notFoundView ∨
        ∃ d, PlacePage (getPlaceDetails r) = PlaceView.resultView d) ∧
    (∀ r : HttpResponse, r.ok = false → r.status ≠ 404 →
        PlacePage (getPlaceDetails r) = PlaceView.errorCard) ∧
    (∀ prev msg, searchResultsAfterFetch prev (FetchOutcome.failure msg) = prev) ∧
    (∀ prev data, searchResultsAfterFetch prev (FetchOutcome.success data) = data) ∧
    (∀ (loading : Bool) (q : List Char) (res : List SearchResultT),
        searchResultsRender loading q res = SearchResultsView.spinner ∨
        searchResultsRender loading q res = SearchResultsView.noResultsMessage ∨
        searchResultsRender loading q res = SearchResultsView.emptyView ∨
        searchResultsRender loading q res = SearchResultsView.resultsList res) ∧
    (∀ prev msg, searchBarAfterFetch prev (FetchOutcome.failure msg) = prev) := by
  refine ⟨?_, ?_, fun prev msg => rfl, fun prev data => rfl, ?_, fun prev msg => rfl⟩
  · intro r
    unfold getPlaceDetails PlacePage
    split_ifs <;> simp
  · intro r h1 h2
    unfold getPlaceDetails PlacePage
    rw [if_pos h1, if_neg h2]
  · intro loading q res
    unfold searchResultsRender
    split_ifs <;> simp

/-- A fixed place detail used to instantiate witnesses. -/
def demoDetail : PlaceDetail :=
  ⟨str "p1", str "Joes Diner", str "1 Main St", str "open", 9 / 10,
    some [str "Has a website"]⟩

/-- Witness for C5: a non-404 failure response renders the error card. -/
theorem client_fetch_outcomes_total_witness :
    PlacePage (getPlaceDetails ⟨false, 500, demoDetail⟩) = PlaceView.errorCard :=
  client_fetch_outcomes_total.2.1 ⟨false, 500, demoDetail⟩ rfl (by decide)

/-- C8: `StatusBadge` classifies case-insensitively — the Open badge is
rendered exactly when the lowercased status is "open", the Closed badge
exactly on "closed", and every other string (including "UNKNOWN" and the
empty string) renders the Unknown badge. -/
theorem StatusBadge_cases (s : List Char) :
    (StatusBadge s = Badge.openBadge ↔ jsToLower s = str "open") ∧
    (StatusBadge s = Badge.closedBadge ↔ jsToLower s = str "closed") ∧
    (StatusBadge s = Badge.unknownBadge ↔
      (jsToLower s ≠ str "open" ∧ jsToLower s ≠ str "closed")) ∧
    StatusBadge (str "UNKNOWN") = Badge.unknownBadge ∧
    StatusBadge (str "") = Badge.unknownBadge ∧
    StatusBadge (str "OPEN") = Badge.openBadge ∧
    StatusBadge (str "Closed") = Badge.closedBadge := by
  refine ⟨?_, ?_, ?_, by decide, by decide, by decide, by decide⟩ <;>
  · by_cases h1 : jsToLower s = str "open"
    · have h2 : jsToLower s ≠ str "closed" := by rw [h1]; decide
      simp [StatusBadge, h1, h2]
      all_goals decide
    · by_cases h2 : jsToLower s = str "closed" <;> simp [StatusBadge, h1, h2] <;>
        decide

/-- Witness for C8 at an arbitrary unexpected status string. -/
theorem StatusBadge_cases_witness :
    StatusBadge (str "Shuttered") = Badge.unknownBadge :=
  (StatusBadge_cases (str "Shuttered")).2.2.1.mpr ⟨by decide, by decide⟩

/-- C9: `ResultCard` renders the generic note whenever the explanation is
absent or the empty list, and whenever it renders an itemised signal list
that list is the non-empty explanation itself. -/
theorem resultCard_empty_explanation_generic :
    (resultCardSignals none = SignalSection.genericNote noExplanationMessage) ∧
    (resultCardSignals (some []) = SignalSection.genericNote noExplanationMessage) ∧
    (∀ e l, resultCardSignals e = SignalSection.signalList l →
      0 < l.length ∧ e = some l) := by
  refine ⟨rfl, rfl, ?_⟩
  intro e l h
  match e with
  | none => simp [resultCardSignals] at h
  | some xs =>
    by_cases hx : 0 < xs.length
    · simp [resultCardSignals, hx] at h
      subst h
      exact ⟨hx, rfl⟩
    · simp [resultCardSignals, hx] at h

/-- Witness for C9: a singleton explanation yields its own signal list. -/
theorem resultCard_empty_explanation_generic_witness :
    0 < [str "sig"].length ∧ some [str "sig"] = some [str "sig"] :=
  resultCard_empty_explanation_generic.2.2 (some [str "sig"]) [str "sig"] (by decide)

/-- C1: a lookup of a nonexistent id is a distinguishable not-found
outcome end to end — `predictById` fails with `NotFound` and never returns
a prediction, the client maps an HTTP 404 to a `null` detail, and
`PlacePage` renders the dedicated not-found view, which differs from both
the error card and every result view. -/
theorem notFound_distinct_outcome :
    (∀ (model : Option Model) (catalog : List Place) (now : Nat) (id : List Char),
        getById catalog id = none →
        predictById model catalog now id = Except.error PredictionError.notFound) ∧
    (∀ (model : Option Model) (catalog : List Place) (now : Nat) (id : List Char)
        (res : PredictionResult), getById catalog id = none →
        predictById model catalog now id ≠ Except.ok res) ∧
    (∀ r : HttpResponse, r.ok = false → r.status = 404 →
        getPlaceDetails r = Except.ok none ∧
        PlacePage (getPlaceDetails r) = PlaceView.notFoundView) ∧
    (PlaceView.notFoundView ≠ PlaceView.errorCard ∧
      ∀ d, PlaceView.notFoundView ≠ PlaceView.resultView d) := by
  refine ⟨?_, ?_, ?_, by decide, fun d h => PlaceView.noConfusion h⟩
  · intro model catalog now id h
    simp [predictById, h]
  · intro model catalog now id res h hc
    simp [predictById, h] at hc
  · intro r h1 h2
    have hg : getPlaceDetails r = Except.ok none := by
      unfold getPlaceDetails
      rw [if_pos h1, if_pos h2]
    exact ⟨hg, by rw [hg]; rfl⟩

/-- Witness for C1: the empty catalog and a 404 response. -/
theorem notFound_distinct_outcome_witness :
    predictById none [] 0 (str "x") = Except.error PredictionError.notFound ∧
    PlacePage (getPlaceDetails ⟨false, 404, demoDetail⟩) = PlaceView.notFoundView :=
  ⟨notFound_distinct_outcome.1 none [] 0 (str "x") rfl,
   (notFound_distinct_outcome.2.2.1 ⟨false, 404, demoDetail⟩ rfl rfl).2⟩

/-- C4: every prediction the service returns with status `OPEN` or `CLOSED`
carries at least one and at most `explanationCap` explanation strings. -/
theorem prediction_explanation_bounds (model : Option Model)
    (catalog : List Place) (now : Nat) (id : List Char)
    (res : PredictionResult)
    (hok : predictById model catalog now id = Except.ok res)
    (hst : res.status = Status.OPEN ∨ res.status = Status.CLOSED) :
    1 ≤ res.explanation.length ∧ res.explanation.length ≤ explanationCap := by
  unfold predictById at hok
  cases hg : getById catalog id with
  | none =>
    rw [hg] at hok
    exact absurd hok (by simp)
  | some p =>
    rw [hg] at hok
    cases model with
    | none =>
      simp only [Except.ok.injEq] at hok
      rw [← hok] at hst
      rcases hst with h | h <;> exact absurd h (by simp)
    | some m =>
      simp only [Except.ok.injEq] at hok
      rw [← hok]
      exact explain_length_bounds _

/-- A fixed classifier model used to instantiate witnesses: constant
probability 1, no contribution data. -/
def demoModel : Model := ⟨fun _ => 1, fun _ => []⟩

/-- A fixed catalog place used to instantiate witnesses. -/
def demoPlace : Place :=
  ⟨str "p1", str "Joes Diner", str "restaurant", some (1, 2), some true,
    none, some (str "osm"), some 10⟩

/-- The prediction the demo model produces for the demo place. -/
def demoPrediction : PredictionResult :=
  ⟨str "p1", Status.OPEN, 1, [genericExplanation]⟩

/-- Witness for C4 at the demo model and catalog. -/
theorem prediction_explanation_bounds_witness :
    1 ≤ demoPrediction.explanation.length ∧
      demoPrediction.explanation.length ≤ explanationCap :=
  prediction_explanation_bounds (some demoModel) [demoPlace] 20 (str "p1")
    demoPrediction
    (by
      have hget : getById [demoPlace] (str "p1") = some demoPlace := rfl
      unfold predictById
      rw [hget]
      unfold predictWithModel demoModel
      norm_num
      rfl)
    (Or.inl rfl)

/-- A place with every optional metadata field absent, used to instantiate
the C6 witness. -/
def barePlace : Place :=
  ⟨str "p0", str "Ghost Cafe", str "mystery", none, none, none, none, none⟩

/-- C6: `extract` is total by construction (it returns a plain list, with
no failure channel) and yields the documented sentinel for each absent
optional field: 0 for a missing coordinate and its presence flag, 0 for a
missing website flag and its presence flag, 0 for the missing opening-hours
and source presence flags, and the clipped horizon for a missing
`last_updated`.  Out-of-range defaults on `getD` keep the reads honest. -/
theorem extract_total_sentinels (now : Nat) (p : Place) :
    (extract now p).length = 9 ∧
    (p.location = none →
      (extract now p).getD 0 7 = 0 ∧ (extract now p).getD 1 7 = 0 ∧
        (extract now p).getD 2 7 = 0) ∧
    (p.has_website = none →
      (extract now p).getD 4 7 = 0 ∧ (extract now p).getD 5 7 = 0) ∧
    (p.opening_hours_text = none → (extract now p).getD 6 7 = 0) ∧
    (p.source = none → (extract now p).getD 7 9 = 0) ∧
    (p.last_updated = none →
      (extract now p).getD 8 0 = Int.ofNat recencyHorizon) := by
  refine ⟨rfl, ?_, ?_, ?_, ?_, ?_⟩ <;> intro h <;> simp [extract, h]

/-- Witness for C6 at a place with every optional field absent. -/
theorem extract_total_sentinels_witness :
    (extract 0 barePlace).length = 9 ∧
    (extract 0 barePlace).getD 0 7 = 0 ∧ (extract 0 barePlace).getD 1 7 = 0 ∧
    (extract 0 barePlace).getD 2 7 = 0 ∧ (extract 0 barePlace).getD 4 7 = 0 ∧
    (extract 0 barePlace).getD 5 7 = 0 ∧ (extract 0 barePlace).getD 6 7 = 0 ∧
    (extract 0 barePlace).getD 7 9 = 0 ∧
    (extract 0 barePlace).getD 8 0 = Int.ofNat recencyHorizon := by
  have h := extract_total_sentinels 0 barePlace
  exact ⟨h.1, (h.2.1 rfl).1, (h.2.1 rfl).2.1, (h.2.1 rfl).2.2,
    (h.2.2.1 rfl).1, (h.2.2.1 rfl).2, h.2.2.2.1 rfl, h.2.2.2.2.1 rfl,
    h.2.2.2.2.2 rfl⟩

/-- Unfolding lemma: percent-decoding a non-escape character contributes
its UTF-8 bytes. -/
theorem percentDecode_cons_ne (c : Nat) (rest : List Nat) (h : c ≠ 37) :
    percentDecode (c :: rest) =
      Option.map (fun bs => utf8Bytes c ++ bs) (percentDecode rest) := by
  conv_lhs => unfold percentDecode
  rw [if_neg h]

/-- Unfolding lemma: percent-decoding a well-formed escape triple yields
the encoded byte. -/
theorem percentDecode_escape (h l hv lv : Nat) (rest : List Nat)
    (hh : hexVal h = some hv) (hl : hexVal l = some lv) :
    percentDecode (37 :: h :: l :: rest) =
      Option.map (fun bs => (16 * hv + lv) :: bs) (percentDecode rest) := by
  simp [percentDecode, hh, hl]

/-- The hex digit characters emitted by the encoder decode to their value. -/
theorem hexVal_hexDigitChar (d : Nat) (h : d < 16) :
    hexVal (hexDigitChar d) = some d := by
  interval_cases d <;> decide

/-- Percent-decoding inverts the percent-escape of one byte. -/
theorem percentDecode_encodeByte (b : Nat) (hb : b < 256) (rest : List Nat) :
    percentDecode (percentEncodeByte b ++ rest) =
      Option.map (fun bs => b :: bs) (percentDecode rest) := by
  have h1 : b / 16 < 16 := by omega
  have h2 : b % 16 < 16 := by omega
  have e : percentEncodeByte b ++ rest =
      37 :: hexDigitChar (b / 16) :: hexDigitChar (b % 16) :: rest := rfl
  rw [e, percentDecode_escape _ _ _ _ rest (hexVal_hexDigitChar _ h1)
    (hexVal_hexDigitChar _ h2)]
  have e2 : 16 * (b / 16) + b % 16 = b := by omega
  rw [e2]

/-- Percent-decoding inverts the percent-escape of a byte sequence. -/
theorem percentDecode_encodedBytes (bs rest : List Nat)
    (h : ∀ b ∈ bs, b < 256) :
    percentDecode (bs.flatMap percentEncodeByte ++ rest) =
      Option.map (fun l => bs ++ l) (percentDecode rest) := by
  induction bs with
  | nil => simp
  | cons b bs ih =>
    rw [List.flatMap_cons, List.append_assoc,
      percentDecode_encodeByte b (h b (List.mem_cons_self _ _)) _,
      ih (fun x hx => h x (List.mem_cons_of_mem _ hx))]
    cases percentDecode rest <;> simp

/-- Every byte of a UTF-8 encoding is below 256. -/
theorem utf8Bytes_lt (n : Nat) (h : n < 1114112) :
    ∀ b ∈ utf8Bytes n, b < 256 := by
  intro b hb
  unfold utf8Bytes at hb
  split_ifs at hb <;> simp at hb <;> omega

/-- UTF-8 decoding inverts the UTF-8 encoding of one code point. -/
theorem utf8Decode_encodeChar (n : Nat) (h : n < 1114112) (rest : List Nat) :
    utf8Decode (utf8Bytes n ++ rest) =
      Option.map (fun l => n :: l) (utf8Decode rest) := by
  unfold utf8Decode utf8Bytes
  split_ifs with h1 h2 h3
  · show utf8DecodeSt none (n :: rest) = _
    conv_lhs => unfold utf8DecodeSt
    rw [if_pos h1]
  · show utf8DecodeSt none ((192 + n / 64) :: (128 + n % 64) :: rest) = _
    have hb1 : ¬(192 + n / 64 < 128) := by omega
    have hb2 : ¬(192 + n / 64 < 192) := by omega
    have hb3 : 192 + n / 64 < 224 := by omega
    have hc : 128 ≤ 128 + n % 64 ∧ 128 + n % 64 < 192 := by omega
    conv_lhs => unfold utf8DecodeSt
    rw [if_neg hb1, if_neg hb2, if_pos hb3]
    conv_lhs => unfold utf8DecodeSt
    rw [if_pos hc, if_pos rfl]
    have hv : (192 + n / 64 - 192) * 64 + (128 + n % 64 - 128) = n := by omega
    rw [hv]
  · show utf8DecodeSt none
        ((224 + n / 4096) :: (128 + n / 64 % 64) :: (128 + n % 64) :: rest) = _
    have hb1 : ¬(224 + n / 4096 < 128) := by omega
    have hb2 : ¬(224 + n / 4096 < 192) := by omega
    have hb3 : ¬(224 + n / 4096 < 224) := by omega
    have hb4 : 224 + n / 4096 < 240 := by omega
    have hc1 : 128 ≤ 128 + n / 64 % 64 ∧ 128 + n / 64 % 64 < 192 := by omega
    have hc2 : 128 ≤ 128 + n % 64 ∧ 128 + n % 64 < 192 := by omega
    conv_lhs => unfold utf8DecodeSt
    rw [if_neg hb1, if_neg hb2, if_neg hb3, if_pos hb4]
    conv_lhs => unfold utf8DecodeSt
    rw [if_pos hc1, if_neg (by decide : ¬((2 : Nat) = 1))]
    conv_lhs => unfold utf8DecodeSt
    rw [if_pos hc2, if_pos (by decide : (2 : Nat) - 1 = 1)]
    have hv : ((224 + n / 4096 - 224) * 64 + (128 + n / 64 % 64 - 128)) * 64 +
        (128 + n % 64 - 128) = n := by omega
    rw [hv]
  · show utf8DecodeSt none
        ((240 + n / 262144) :: (128 + n / 4096 % 64) :: (128 + n / 64 % 64) ::
          (128 + n % 64) :: rest) = _
    have hb1 : ¬(240 + n / 262144 < 128) := by omega
    have hb2 : ¬(240 + n / 262144 < 192) := by omega
    have hb3 : ¬(240 + n / 262144 < 224) := by omega
    have hb4 : ¬(240 + n / 262144 < 240) := by omega
    have hb5 : 240 + n / 262144 < 248 := by omega
    have hc1 : 128 ≤ 128 + n / 4096 % 64 ∧ 128 + n / 4096 % 64 < 192 := by omega
    have hc2 : 128 ≤ 128 + n / 64 % 64 ∧ 128 + n / 64 % 64 < 192 := by omega
    have hc3 : 128 ≤ 128 + n % 64 ∧ 128 + n % 64 < 192 := by omega
    conv_lhs => unfold utf8DecodeSt
    rw [if_neg hb1, if_neg hb2, if_neg hb3, if_neg hb4, if_pos hb5]
    conv_lhs => unfold utf8DecodeSt
    rw [if_pos hc1, if_neg (by decide : ¬((3 : Nat) = 1))]
    conv_lhs => unfold utf8DecodeSt
    rw [if_pos hc2, if_neg (by decide : ¬((3 : Nat) - 1 = 1))]
    conv_lhs => unfold utf8DecodeSt
    rw [if_pos hc3, if_pos (by decide : (3 : Nat) - 1 - 1 = 1)]
    have hv : (((240 + n / 262144 - 240) * 64 + (128 + n / 4096 % 64 - 128)) * 64 +
        (128 + n / 64 % 64 - 128)) * 64 + (128 + n % 64 - 128) = n := by omega
    rw [hv]

/-- UTF-8 decoding inverts the UTF-8 encoding of a code-point sequence. -/
theorem utf8Decode_encodedChars (cps : List Nat)
    (h : ∀ n ∈ cps, n < 1114112) :
    utf8Decode (cps.flatMap utf8Bytes) = some cps := by
  induction cps with
  | nil => rfl
  | cons n cps ih =>
    rw [List.flatMap_cons, utf8Decode_encodeChar n (h n (List.mem_cons_self _ _)) _,
      ih (fun x hx => h x (List.mem_cons_of_mem _ hx))]
    rfl

/-- Percent-decoding maps the encoding of one code point to its UTF-8
bytes, whichever branch the encoder took. -/
theorem percentDecode_encodeCp (n : Nat) (hn : n < 1114112) (rest : List Nat) :
    percentDecode (encodeCp n ++ rest) =
      Option.map (fun l => utf8Bytes n ++ l) (percentDecode rest) := by
  unfold encodeCp
  split_ifs with hu
  · have h37 : n ≠ 37 := by
      intro e
      rw [e] at hu
      exact absurd hu (by decide)
    show percentDecode (n :: rest) = _
    exact percentDecode_cons_ne n rest h37
  · exact percentDecode_encodedBytes _ _ (utf8Bytes_lt n hn)

/-- Percent-decoding the full encoder output recovers the UTF-8 bytes of
the original code points. -/
theorem percentDecode_encodeURIComponent (cps : List Nat)
    (h : ∀ n ∈ cps, n < 1114112) :
    percentDecode (encodeURIComponent cps) = some (cps.flatMap utf8Bytes) := by
  induction cps with
  | nil => rfl
  | cons n cps ih =>
    unfold encodeURIComponent
    rw [List.flatMap_cons]
    have e : encodeCp n ++ cps.flatMap encodeCp =
        encodeCp n ++ encodeURIComponent cps := rfl
    rw [e, percentDecode_encodeCp n (h n (List.mem_cons_self _ _)) _,
      ih (fun x hx => h x (List.mem_cons_of_mem _ hx))]
    rfl

/-- Full URI-component decoding inverts `encodeURIComponent` on every
sequence of valid code points. -/
theorem decodeURIComponent_encodeURIComponent (cps : List Nat)
    (h : ∀ n ∈ cps, n < 1114112) :
    decodeURIComponent (encodeURIComponent cps) = some cps := by
  unfold decodeURIComponent
  rw [percentDecode_encodeURIComponent cps h]
  exact utf8Decode_encodedChars cps h

/-- Hex digit characters are unreserved (digits and uppercase letters). -/
theorem hexDigitChar_unreserved (d : Nat) (h : d < 16) :
    isUnreservedCp (hexDigitChar d) = true := by
  interval_cases d <;> decide

/-- Every character of the encoding of a valid code point is either
unreserved or the escape character `%`. -/
theorem encodeCp_mem (n b : Nat) (hn : n < 1114112) (hb : b ∈ encodeCp n) :
    isUnreservedCp b = true ∨ b = 37 := by
  unfold encodeCp at hb
  split_ifs at hb with hu
  · simp at hb
    subst hb
    exact Or.inl hu
  · simp only [List.mem_flatMap] at hb
    obtain ⟨a, ha, hba⟩ := hb
    have ha16 : a / 16 < 16 ∧ a % 16 < 16 := by
      have := utf8Bytes_lt n hn a ha
      omega
    unfold percentEncodeByte at hba
    simp at hba
    rcases hba with hb1 | hb1 | hb1
    · exact Or.inr hb1
    · subst hb1
      exact Or.inl (hexDigitChar_unreserved _ ha16.1)
    · subst hb1
      exact Or.inl (hexDigitChar_unreserved _ ha16.2)

/-- C10: the `q` parameter `searchPlaces` puts in the request URL decodes
back to exactly the original query — as code points and as a string — and
contains none of the URL separator characters `&`, `=`, `#`, so the
parameter boundary of the issued request is intact. -/
theorem searchPlaces_query_roundtrip (q : List Char) :
    decodeURIComponent (searchPlacesQueryParam q) = some (q.map Char.toNat) ∧
    (decodeURIComponent (searchPlacesQueryParam q)).map (List.map Char.ofNat) =
      some q ∧
    (∀ b ∈ searchPlacesQueryParam q, b ≠ 38 ∧ b ≠ 61 ∧ b ≠ 35) := by
  have hvalid : ∀ n ∈ q.map Char.toNat, n < 1114112 := by
    intro n hn
    simp only [List.mem_map] at hn
    obtain ⟨c, _, rfl⟩ := hn
    rcases c.valid with h | h
    · exact Nat.lt_trans h (by norm_num)
    · exact h.2
  have hmain := decodeURIComponent_encodeURIComponent (q.map Char.toNat) hvalid
  refine ⟨hmain, ?_, ?_⟩
  · show (decodeURIComponent (encodeURIComponent (q.map Char.toNat))).map
        (List.map Char.ofNat) = some q
    rw [hmain]
    simp [List.map_map, Function.comp_def, Char.ofNat_toNat]
  · intro b hb
    unfold searchPlacesQueryParam encodeURIComponent at hb
    simp only [List.mem_flatMap] at hb
    obtain ⟨n, hn, hbn⟩ := hb
    rcases encodeCp_mem n b (hvalid n hn) hbn with h | h
    · refine ⟨?_, ?_, ?_⟩ <;> intro e <;> subst e <;> exact absurd h (by decide)
    · subst h
      exact ⟨by decide, by decide, by decide⟩

/-- Witness for C10 at a query containing a space, the URL separators and
a non-ASCII character. -/
theorem searchPlaces_query_roundtrip_witness :
    decodeURIComponent (searchPlacesQueryParam (str "a &?=#é")) =
      some ((str "a &?=#é").map Char.toNat) :=
  (searchPlaces_query_roundtrip (str "a &?=#é")).1

instance : IsTotal SearchCandidate rankLE :=
  ⟨by
    intro a b
    unfold rankLE
    rcases lt_trichotomy a.relevance_score b.relevance_score with h | h | h
    · exact Or.inr (Or.inl h)
    · rcases lt_trichotomy a.last_updated b.last_updated with h2 | h2 | h2
      · exact Or.inr (Or.inr ⟨h.symm, Or.inl h2⟩)
      · rcases le_total a.place_id b.place_id with h3 | h3
        · exact Or.inl (Or.inr ⟨h, Or.inr ⟨h2, h3⟩⟩)
        · exact Or.inr (Or.inr ⟨h.symm, Or.inr ⟨h2.symm, h3⟩⟩)
      · exact Or.inl (Or.inr ⟨h, Or.inl h2⟩)
    · exact Or.inl (Or.inl h)⟩

instance : IsTrans SearchCandidate rankLE :=
  ⟨by
    intro a b c hab hbc
    unfold rankLE at hab hbc ⊢
    rcases hab with h1 | ⟨e1, h1⟩ <;> rcases hbc with h2 | ⟨e2, h2⟩
    · exact Or.inl (lt_trans h2 h1)
    · exact Or.inl (by omega)
    · exact Or.inl (by omega)
    · refine Or.inr ⟨e1.trans e2, ?_⟩
      rcases h1 with h1 | ⟨f1, h1⟩ <;> rcases h2 with h2 | ⟨f2, h2⟩
      · exact Or.inl (lt_trans h2 h1)
      · exact Or.inl (by omega)
      · exact Or.inl (by omega)
      · exact Or.inr ⟨f1.trans f2, le_trans h1 h2⟩⟩

/-- C7: the Query Resolver always returns its candidates sorted by the
ranking order — relevance score descending, ties by `last_updated`
descending, then `place_id` ascending — and that order is total and
antisymmetric on the ranking key, so it is a total order on candidates with
distinct ids and the ordering of a fixed query against a fixed catalog is
uniquely determined (and `search` is a pure function of them). -/
theorem search_sorted_total_order (model : Option Model) (now : Nat)
    (sim : List Char → Place → Int) (limit : Nat) (catalog : List Place)
    (q : List Char) :
    List.Sorted rankLE (search model now sim limit catalog q) ∧
    (∀ a b, rankLE a b ∨ rankLE b a) ∧
    (∀ a b, rankLE a b → rankLE b a →
      a.relevance_score = b.relevance_score ∧ a.last_updated = b.last_updated ∧
        a.place_id = b.place_id) := by
  refine ⟨?_, fun a b => total_of rankLE a b, ?_⟩
  · unfold search
    split_ifs
    · simp
    · exact List.Pairwise.sublist (List.take_sublist _ _)
        (List.sorted_insertionSort rankLE _)
  · intro a b hab hba
    unfold rankLE at hab hba
    rcases hab with h1 | ⟨e1, h1⟩ <;> rcases hba with h2 | ⟨e2, h2⟩
    · exact absurd h2 (by omega)
    · exact absurd h1 (by omega)
    · exact absurd h2 (by omega)
    · refine ⟨e1, ?_, ?_⟩
      · rcases h1 with h1 | ⟨f1, h1⟩ <;> rcases h2 with h2 | ⟨f2, h2⟩
        · exact absurd h2 (by omega)
        · exact absurd h1 (by omega)
        · exact absurd h2 (by omega)
        · exact f1
      · rcases h1 with h1 | ⟨f1, h1⟩ <;> rcases h2 with h2 | ⟨f2, h2⟩
        · exact absurd h2 (by omega)
        · exact absurd h1 (by omega)
        · exact absurd h2 (by omega)
        · exact le_antisymm h1 h2

/-- Witness for C7: the output on a concrete catalog is sorted, and the
antisymmetry conjunct applied to one candidate against itself. -/
theorem search_sorted_total_order_witness :
    List.Sorted rankLE
      (search none 0 (fun _ _ => 1) 20 [demoPlace, barePlace] (str "joes dinr")) :=
  (search_sorted_total_order none 0 (fun _ _ => 1) 20 [demoPlace, barePlace]
    (str "joes dinr")).1
